import Mathlib

/-!
Shallow embedding of the location service (hierarchical geographic entities
with levels, name bindings and parent/child relations) and proofs of its
specified properties.

Tables are lists of rows carrying a soft-delete flag (gorm.DeletedAt is
modelled as a Bool); queries filter on it exactly where GORM's soft-delete
scope or the hand-written SQL conditions do.  UUIDs are modelled as natural
numbers; `DB.nextId` plays the role of `uuid.New` for freshly created rows.
Each store operation is a function `DB → ... → Except Err DB`; a returned
error means the enclosing transaction rolled back, so the observable state
after a failed call is the original one (see `commit`).
-/

namespace LocationSpec

abbrev Uid := Nat

/-- GeoLevel row (geolevels.go): a named level with an optional rank. -/
structure GeoLevel where
  id : Uid
  name : String
  rank : Option ℚ
  deleted : Bool
deriving DecidableEq, Repr

/-- Location row (locations.go): an entity bound to exactly one geo level. -/
structure Location where
  id : Uid
  geoLevelId : Uid
  deleted : Bool
deriving DecidableEq, Repr

/-- NameMap row (namemap.go): one name bound to a location, possibly primary. -/
structure NameMap where
  id : Uid
  locationId : Uid
  name : String
  isPrimary : Bool
  deleted : Bool
deriving DecidableEq, Repr

/-- Relation row (relations.go): a directed parent/child edge between locations. -/
structure Relation where
  id : Uid
  parentId : Uid
  childId : Uid
  deleted : Bool
deriving DecidableEq, Repr

/-- The database state: the four tables plus a fresh-id source. -/
structure DB where
  geoLevels : List GeoLevel
  locations : List Location
  nameMaps : List NameMap
  relations : List Relation
  nextId : Uid
deriving DecidableEq, Repr

/-- Typed errors (errors.go plus the inline errors of relations.go /
location.go and the uuid parse failure of the facade). -/
inductive Err where
  | nameRequired
  | locationNotFound
  | geoLevelNotExist
  | nameAlreadyExists
  | primaryNameExists
  | cannotDeletePrimary
  | primaryNameNotFound
  | invalidHierarchy
  | duplicateRelation
  | selfRelation
  | relationNotFound
  | malformedId
  | parentAtLevelNotFound
deriving DecidableEq, Repr

/-- Transaction outcome: the new state on commit, the unchanged original
state on rollback (GORM's `Transaction` rolls back whenever the closure
returns an error). -/
def commit (db : DB) : Except Err DB → DB
  | .ok db2 => db2
  | .error _ => db

/-- `tx.First(&location, id)`: GORM's soft-delete scope excludes deleted rows. -/
def findLocation (db : DB) (id : Uid) : Option Location :=
  db.locations.find? (fun l => l.id == id && !l.deleted)

/-- Lookup of a geo level by id under the soft-delete scope (Preload GeoLevel). -/
def findGeoLevel (db : DB) (id : Uid) : Option GeoLevel :=
  db.geoLevels.find? (fun g => g.id == id && !g.deleted)

/-- Rank of a location's preloaded geo level; `none` when the level row is
absent (Preload then leaves the zero value, whose Rank is nil). -/
def locationRank (db : DB) (loc : Location) : Option ℚ :=
  match findGeoLevel db loc.geoLevelId with
  | some g => g.rank
  | none => none

/-- Count of non-deleted primary name rows of a location
(`location_id = ? AND is_primary = true AND deleted_at IS NULL`). -/
def primaryCount (db : DB) (locId : Uid) : Nat :=
  db.nameMaps.countP (fun nm => nm.locationId == locId && nm.isPrimary && !nm.deleted)

/-- NameMap.BeforeCreate hook: refuse a primary row when a non-deleted
primary already exists for the location. -/
def nameMapBeforeCreate (db : DB) (nm : NameMap) : Except Err Unit :=
  if nm.isPrimary && decide (0 < primaryCount db nm.locationId) then
    .error .primaryNameExists
  else
    .ok ()

/-- `tx.Create(nameMap)`: run the BeforeCreate hook, then append the row
with a fresh id. -/
def createNameMap (db : DB) (locId : Uid) (name : String) (isPrimary : Bool) :
    Except Err DB :=
  let nm : NameMap := ⟨db.nextId, locId, name, isPrimary, false⟩
  match nameMapBeforeCreate db nm with
  | .error e => .error e
  | .ok _ =>
      .ok { db with nameMaps := db.nameMaps ++ [nm], nextId := db.nextId + 1 }

/-- `location_id = ? AND name = ? AND deleted_at IS NULL` existence check. -/
def nameExistsFor (db : DB) (locId : Uid) (name : String) : Bool :=
  db.nameMaps.any (fun nm => nm.locationId == locId && nm.name == name && !nm.deleted)

/-- `Update("is_primary", false)` on all non-deleted primary rows of a location. -/
def demotePrimaries (db : DB) (locId : Uid) : DB :=
  { db with nameMaps := db.nameMaps.map (fun nm =>
      if nm.locationId == locId && nm.isPrimary && !nm.deleted then
        { nm with isPrimary := false }
      else nm) }

/-- First non-deleted name row of a location with the given text. -/
def findNameMap (db : DB) (locId : Uid) (name : String) : Option NameMap :=
  db.nameMaps.find? (fun nm => nm.locationId == locId && nm.name == name && !nm.deleted)

/-- `tx.Save(&nameMap)`: update the row with the given primary key. -/
def updateNameMapRow (db : DB) (rowId : Uid) (f : NameMap → NameMap) : DB :=
  { db with nameMaps := db.nameMaps.map (fun nm => if nm.id == rowId then f nm else nm) }

/-- Store.InsertNameMap (namemap.go:43-96): insert an alias or primary name,
demoting an existing primary first when inserting a primary. -/
def InsertNameMap (db : DB) (locId : Uid) (name : String) (isPrimary : Bool) :
    Except Err DB :=
  if name = "" then .error .nameRequired
  else
    match findLocation db locId with
    | none => .error .locationNotFound
    | some _ =>
        if nameExistsFor db locId name then .error .nameAlreadyExists
        else
          let db1 :=
            if isPrimary && decide (0 < primaryCount db locId) then
              demotePrimaries db locId
            else db
          createNameMap db1 locId name isPrimary

/-- Store.SetPrimaryName (namemap.go:221-277): make a name primary, creating
it if absent, demoting any existing primary; no-op when already primary. -/
def SetPrimaryName (db : DB) (locId : Uid) (name : String) : Except Err DB :=
  if name = "" then .error .nameRequired
  else
    match findLocation db locId with
    | none => .error .locationNotFound
    | some _ =>
        match findNameMap db locId name with
        | none =>
            let db1 := demotePrimaries db locId
            createNameMap db1 locId name true
        | some nm =>
            if nm.isPrimary then .ok db
            else
              let db1 := demotePrimaries db locId
              .ok (updateNameMapRow db1 nm.id (fun x => { x with isPrimary := true }))

/-- Store.DeleteNameMap (namemap.go:158-181): soft-delete one name row;
no-op when the name is absent; refuse to delete a primary name. -/
def DeleteNameMap (db : DB) (locId : Uid) (name : String) : Except Err DB :=
  if name = "" then .error .nameRequired
  else
    match findNameMap db locId name with
    | none => .ok db
    | some nm =>
        if nm.isPrimary then .error .cannotDeletePrimary
        else
          .ok { db with nameMaps := db.nameMaps.map (fun x =>
            if x.id == nm.id && !x.deleted then { x with deleted := true } else x) }

/-- At most one non-deleted primary name per location (spec section 8,
first testable property). -/
def atMostOnePrimary (db : DB) : Prop :=
  ∀ locId : Uid, primaryCount db locId ≤ 1

/-- Character-list version of SQL LIKE anchoring: does the second list occur
at the start of the first? -/
def charsStartWith : List Char → List Char → Bool
  | _, [] => true
  | [], _ :: _ => false
  | a :: hay, b :: pat => a == b && charsStartWith hay pat

/-- Does the second character list occur contiguously anywhere in the first? -/
def charsHaveSub : List Char → List Char → Bool
  | hay, pat =>
    match hay with
    | [] => pat.isEmpty
    | _ :: rest => charsStartWith hay pat || charsHaveSub rest pat

/-- PostgreSQL `name LIKE '%pattern%'` for a metacharacter-free pattern:
a CASE-SENSITIVE substring test. -/
def sqlLike (name pattern : String) : Bool :=
  charsHaveSub name.toList pattern.toList

/-- Case-insensitive substring occurrence, the behaviour the spec and the
repository's own test suite ascribe to the pattern search. -/
def ciOccurs (name pattern : String) : Bool :=
  charsHaveSub (name.toList.map Char.toLower) (pattern.toList.map Char.toLower)

/-- Store.SearchNamesByPattern (namemap.go:280-296): non-deleted name rows
whose text matches `LIKE '%pattern%'`.  The ORDER BY clause
(`is_primary DESC, name ASC`) only permutes the result and is not modelled;
the claims concern which rows match. -/
def SearchNamesByPattern (db : DB) (pattern : String) :
    Except Err (List NameMap) :=
  if pattern = "" then .error .nameRequired
  else
    .ok (db.nameMaps.filter (fun nm => sqlLike nm.name pattern && !nm.deleted))

/-- Join condition of Relation.BeforeCreate's duplicate check: some row of
the locations table (the raw SQL join is not soft-delete scoped) is the
relation's parent and belongs to the given level. -/
def parentHasLevel (db : DB) (r : Relation) (levelId : Uid) : Bool :=
  db.locations.any (fun p => p.id == r.parentId && p.geoLevelId == levelId)

/-- Rank gate of Relation.BeforeCreate: both levels carry a rank and the
parent's rank is not strictly below the child's. -/
def rankViolation (db : DB) (parent child : Location) : Bool :=
  match locationRank db parent, locationRank db child with
  | some pr, some cr => decide (cr ≤ pr)
  | _, _ => false

/-- Duplicate check of Relation.BeforeCreate: the child already has a
non-deleted relation whose parent belongs to the given level. -/
def dupRelationExists (db : DB) (childId levelId : Uid) : Bool :=
  db.relations.any (fun r =>
    r.childId == childId && parentHasLevel db r levelId && !r.deleted)

/-- Store.InsertRelation (relations.go:90-119) together with the
Relation.BeforeCreate hook (relations.go:41-87): reject self-relations,
unknown endpoints, rank violations and duplicate per-level parents, then
append the new edge. -/
def InsertRelation (db : DB) (parentId childId : Uid) : Except Err DB :=
  if parentId == childId then .error .selfRelation
  else
    match findLocation db parentId with
    | none => .error .locationNotFound
    | some parent =>
        match findLocation db childId with
        | none => .error .locationNotFound
        | some _child =>
            if rankViolation db parent _child then .error .invalidHierarchy
            else if dupRelationExists db childId parent.geoLevelId then
              .error .duplicateRelation
            else
              .ok { db with
                relations := db.relations ++ [⟨db.nextId, parentId, childId, false⟩],
                nextId := db.nextId + 1 }

/-- Store.DeleteLocation (locations.go:192-221): in one transaction,
soft-delete all name rows of the location, all relations touching it, and
the location row itself; NotFound when the id does not resolve. -/
def DeleteLocation (db : DB) (id : Uid) : Except Err DB :=
  match findLocation db id with
  | none => .error .locationNotFound
  | some loc =>
      let db1 := { db with nameMaps := db.nameMaps.map (fun nm : NameMap =>
        if nm.locationId == id && !nm.deleted then { nm with deleted := true } else nm) }
      let db2 := { db1 with relations := db1.relations.map (fun r : Relation =>
        if (r.parentId == id || r.childId == id) && !r.deleted then
          { r with deleted := true } else r) }
      .ok { db2 with locations := db2.locations.map (fun l : Location =>
        if l.id == loc.id && !l.deleted then { l with deleted := true } else l) }

/-- LocationWithNames (locations.go:33-38) and the facade's Location view
(interface.go): id, level name, primary name and aliases. -/
structure LocationWithNames where
  geoId : Uid
  geoLevel : String
  name : String
  aliases : List String
deriving DecidableEq, Repr

/-- Assembly loop of Store.GetLocation: fold the non-deleted name rows,
the primary one giving the name, the rest the aliases; absent primary
leaves the zero value "". -/
def locationView (db : DB) (loc : Location) : LocationWithNames :=
  let names := db.nameMaps.filter (fun nm => nm.locationId == loc.id && !nm.deleted)
  { geoId := loc.id
    geoLevel := ((findGeoLevel db loc.geoLevelId).map GeoLevel.name).getD ""
    name := names.foldl (fun acc nm => if nm.isPrimary then nm.name else acc) ""
    aliases := (names.filter (fun nm => !nm.isPrimary)).map NameMap.name }

/-- Store.GetLocation (locations.go:92-126): the view of one location, or
LocationNotFound. -/
def GetLocationStore (db : DB) (id : Uid) : Except Err LocationWithNames :=
  match findLocation db id with
  | none => .error .locationNotFound
  | some loc => .ok (locationView db loc)

/-- A geo id string as received by the facade: either it parses as a uuid
or it is malformed. -/
inductive GeoID where
  | valid (id : Uid)
  | malformed
deriving DecidableEq, Repr

/-- uuid.Parse at the facade boundary (location.go:413-415). -/
def uuidFromString : GeoID → Except Err Uid
  | .valid id => .ok id
  | .malformed => .error .malformedId

/-- Facade GetLocation (location.go:122-137). -/
def GetLocationSvc (db : DB) (g : GeoID) : Except Err LocationWithNames :=
  match uuidFromString g with
  | .error e => .error e
  | .ok id => GetLocationStore db id

/-- Facade GetLocations (location.go:141-151): fetch each id in order,
aborting on the first error with no partial result. -/
def GetLocations (db : DB) : List GeoID → Except Err (List LocationWithNames)
  | [] => .ok []
  | g :: gs =>
      match GetLocationSvc db g with
      | .error e => .error e
      | .ok v =>
          match GetLocations db gs with
          | .error e => .error e
          | .ok vs => .ok (v :: vs)

/-- Loop body of facade AddChildren: parse and insert each child in
sequence, threading the transaction state. -/
def addChildrenLoop (db : DB) (parentId : Uid) : List GeoID → Except Err DB
  | [] => .ok db
  | g :: gs =>
      match uuidFromString g with
      | .error e => .error e
      | .ok childId =>
          match InsertRelation db parentId childId with
          | .error e => .error e
          | .ok db1 => addChildrenLoop db1 parentId gs

/-- Facade AddChildren (location.go:96-119): all insertions run inside one
transaction; any failure rolls the whole batch back. -/
def AddChildren (db : DB) (parentGeoId : GeoID) (childGeoIds : List GeoID) :
    Except Err DB :=
  match uuidFromString parentGeoId with
  | .error e => .error e
  | .ok parentId => addChildrenLoop db parentId childGeoIds

/-- Level name shown for a location by the facade's preloaded
`GeoLevel.Name` ("" when the level row is absent under the soft-delete
scope). -/
def levelNameOf (db : DB) (loc : Location) : String :=
  ((findGeoLevel db loc.geoLevelId).map GeoLevel.name).getD ""

/-- Facade GetChildrenAtLevel (location.go:366-388): filter the direct
children by level name; the views carry an empty name and alias list. -/
def GetChildrenAtLevel (db : DB) (g : GeoID) (geoLevel : String) :
    Except Err (List LocationWithNames) :=
  match uuidFromString g with
  | .error e => .error e
  | .ok id =>
      .ok ((db.relations.filter (fun r => r.parentId == id && !r.deleted)).filterMap
        (fun r =>
          match findLocation db r.childId with
          | some child =>
              if levelNameOf db child == geoLevel then
                some { geoId := child.id, geoLevel := levelNameOf db child,
                       name := "", aliases := [] }
              else none
          | none => none))

/-- Facade GetParentAtLevel (location.go:390-411): first direct parent with
the given level name; the view carries an empty name and alias list. -/
def GetParentAtLevel (db : DB) (g : GeoID) (geoLevel : String) :
    Except Err LocationWithNames :=
  match uuidFromString g with
  | .error e => .error e
  | .ok id =>
      match (db.relations.filter (fun r => r.childId == id && !r.deleted)).findSome?
        (fun r =>
          match findLocation db r.parentId with
          | some parent =>
              if levelNameOf db parent == geoLevel then
                some { geoId := parent.id, geoLevel := levelNameOf db parent,
                       name := "", aliases := [] }
              else none
          | none => none) with
      | some v => .ok v
      | none => .error .parentAtLevelNotFound

/-- Number of non-deleted relations of a child whose parent (via the
locations table, as in the SQL join) belongs to the given level. -/
def childLevelCount (db : DB) (childId levelId : Uid) : Nat :=
  db.relations.countP (fun r =>
    !r.deleted && r.childId == childId && parentHasLevel db r levelId)

/-- Per-level parent uniqueness (spec section 8, second testable property):
every child has at most one non-deleted relation per parent level. -/
def perLevelUnique (db : DB) : Prop :=
  ∀ childId levelId : Uid, childLevelCount db childId levelId ≤ 1

/-- Sample level COUNTRY with rank 1 (spec section 8 scenario). -/
def lvlCountry : GeoLevel := { id := 10, name := "COUNTRY", rank := some 1, deleted := false }

/-- Sample level STATE with rank 2. -/
def lvlState : GeoLevel := { id := 20, name := "STATE", rank := some 2, deleted := false }

/-- Sample entity France at level COUNTRY. -/
def locFrance : Location := { id := 1, geoLevelId := 10, deleted := false }

/-- Sample entity Normandy at level STATE. -/
def locNormandy : Location := { id := 2, geoLevelId := 20, deleted := false }

/-- Primary name row of France. -/
def nmFrance : NameMap :=
  { id := 50, locationId := 1, name := "France", isPrimary := true, deleted := false }

/-- Primary name row of Normandy. -/
def nmNormandy : NameMap :=
  { id := 51, locationId := 2, name := "Normandy", isPrimary := true, deleted := false }

/-- Alias row of France. -/
def nmGaul : NameMap :=
  { id := 52, locationId := 1, name := "Gaul", isPrimary := false, deleted := false }

/-- Sample database: two ranked levels, two named entities, no relations. -/
def dbBase : DB :=
  { geoLevels := [lvlCountry, lvlState]
    locations := [locFrance, locNormandy]
    nameMaps := [nmFrance, nmNormandy, nmGaul]
    relations := []
    nextId := 100 }

/-- Sample database with the relation France → Normandy added. -/
def dbRel : DB :=
  { dbBase with relations := [{ id := 60, parentId := 1, childId := 2, deleted := false }] }

/-- Sample database with one location and no name rows at all. -/
def dbNames0 : DB :=
  { geoLevels := [lvlCountry], locations := [locFrance], nameMaps := [], relations := [],
    nextId := 100 }

/-- Name row "California" (primary), as in the repository's search test. -/
def nmCalifornia : NameMap :=
  { id := 70, locationId := 3, name := "California", isPrimary := true, deleted := false }

/-- Name row "CA" (alias), as in the repository's search test. -/
def nmCA : NameMap :=
  { id := 71, locationId := 3, name := "CA", isPrimary := false, deleted := false }

/-- Sample database holding the two California name rows. -/
def dbCal : DB :=
  { geoLevels := [lvlState]
    locations := [{ id := 3, geoLevelId := 20, deleted := false }]
    nameMaps := [nmCalifornia, nmCA]
    relations := []
    nextId := 200 }

/-- C4: a relation whose parent and child are the same id is rejected with
the self-relation error, in every state (hence before the existence, rank
and uniqueness checks, which would need the state) and with no write: the
committed state is the original one. -/
theorem InsertRelation_self_spec (db : DB) (p : Uid) :
    InsertRelation db p p = .error .selfRelation
      ∧ commit db (InsertRelation db p p) = db := by
  constructor <;> simp [InsertRelation, commit]

/-- C3: when both endpoints of a candidate relation exist and both their
levels carry a rank, a parent rank greater than or equal to the child rank
makes InsertRelation fail with InvalidHierarchy, leaving the state
unchanged (zero relations created).  The endpoints are distinct, since a
self-relation is rejected earlier with its own error. -/
theorem InsertRelation_rank_spec (db : DB) (p c : Uid) (parent child : Location)
    (pr cr : ℚ) (hpc : p ≠ c)
    (hp : findLocation db p = some parent)
    (hc : findLocation db c = some child)
    (hpr : locationRank db parent = some pr)
    (hcr : locationRank db child = some cr)
    (hge : cr ≤ pr) :
    InsertRelation db p c = .error .invalidHierarchy
      ∧ commit db (InsertRelation db p c) = db := by
  have hv : rankViolation db parent child = true := by
    simp [rankViolation, hpr, hcr, hge]
  have hne : (p == c) = false := by simp [hpc]
  constructor
  · simp [InsertRelation, hne, hp, hc, hv]
  · simp [InsertRelation, hne, hp, hc, hv, commit]

/-- Witness for C3: in the sample database, relating Normandy (STATE,
rank 2) as parent of France (COUNTRY, rank 1) fails with InvalidHierarchy
and changes nothing. -/
theorem InsertRelation_rank_spec_witness :
    InsertRelation dbBase 2 1 = .error .invalidHierarchy
      ∧ commit dbBase (InsertRelation dbBase 2 1) = dbBase :=
  InsertRelation_rank_spec dbBase 2 1 locNormandy locFrance 2 1
    (by decide) (by decide) (by decide) (by decide) (by decide) (by norm_num)

/-- C5: AddChildren is atomic — whenever it returns an error (malformed
child id, self-relation, unknown entity, rank violation or duplicate
per-level parent, all surfaced through the loop), the committed state is
the original one, so zero new relations persist; an empty child list is a
no-op success; and a parsed child is handled by exactly one InsertRelation
step whose failure aborts the remaining sequence. -/
theorem AddChildren_spec (db : DB) (p : GeoID) (ids : List GeoID) :
    (∀ e : Err, AddChildren db p ids = .error e →
        commit db (AddChildren db p ids) = db)
    ∧ (∀ i : Uid, AddChildren db (GeoID.valid i) [] = .ok db)
    ∧ (∀ (i : Uid) (g : GeoID) (gs : List GeoID) (cid : Uid),
        uuidFromString g = .ok cid →
        AddChildren db (GeoID.valid i) (g :: gs) =
          (match InsertRelation db i cid with
           | .error e => .error e
           | .ok db1 => addChildrenLoop db1 i gs)) := by
  refine ⟨fun e h => ?_, fun i => rfl, fun i g gs cid hg => ?_⟩
  · rw [h]; rfl
  · cases g with
    | malformed => simp [uuidFromString] at hg
    | valid j =>
        simp only [uuidFromString] at hg
        cases hg
        rfl

/-- Witness for C5: adding the child list [France] under France itself
fails (self-relation) and commits nothing; an empty list succeeds; a
failing first child aborts the sequence with its error. -/
theorem AddChildren_spec_witness :
    commit dbBase (AddChildren dbBase (GeoID.valid 1) [GeoID.valid 1]) = dbBase
      ∧ AddChildren dbBase (GeoID.valid 7) [] = .ok dbBase
      ∧ AddChildren dbBase (GeoID.valid 1) [GeoID.valid 1, GeoID.valid 2] =
          (match InsertRelation dbBase 1 1 with
           | .error e => .error e
           | .ok db1 => addChildrenLoop db1 1 [GeoID.valid 2]) :=
  ⟨(AddChildren_spec dbBase (GeoID.valid 1) [GeoID.valid 1]).1 .selfRelation rfl,
   (AddChildren_spec dbBase (GeoID.valid 7) []).2.1 7,
   (AddChildren_spec dbBase (GeoID.valid 1) [GeoID.valid 1, GeoID.valid 2]).2.2 1
     (GeoID.valid 1) [GeoID.valid 2] 1 rfl⟩

/-- C10: every Location view produced by GetChildrenAtLevel or
GetParentAtLevel carries an empty primary name and an empty alias list,
and both queries are insensitive to the entire naming store (they never
read it), for every database state. -/
theorem level_views_carry_no_names (db : DB) (g : GeoID) (lvl : String) :
    (∀ vs, GetChildrenAtLevel db g lvl = .ok vs →
        ∀ v ∈ vs, v.name = "" ∧ v.aliases = [])
    ∧ (∀ v, GetParentAtLevel db g lvl = .ok v → v.name = "" ∧ v.aliases = [])
    ∧ (∀ nms : List NameMap,
        GetChildrenAtLevel { db with nameMaps := nms } g lvl = GetChildrenAtLevel db g lvl
          ∧ GetParentAtLevel { db with nameMaps := nms } g lvl = GetParentAtLevel db g lvl) := by
  refine ⟨fun vs h v hv => ?_, fun v h => ?_, fun nms => ⟨rfl, rfl⟩⟩
  · cases g with
    | malformed => simp [GetChildrenAtLevel, uuidFromString] at h
    | valid id =>
        simp only [GetChildrenAtLevel, uuidFromString] at h
        cases h
        rw [List.mem_filterMap] at hv
        obtain ⟨r, _, hfr⟩ := hv
        split at hfr
        · split at hfr
          · cases hfr
            exact ⟨rfl, rfl⟩
          · cases hfr
        · cases hfr
  · cases g with
    | malformed => simp [GetParentAtLevel, uuidFromString] at h
    | valid id =>
        simp only [GetParentAtLevel, uuidFromString] at h
        split at h
        next v2 hfs =>
          cases h
          rw [List.findSome?_eq_some_iff] at hfs
          obtain ⟨l1, a, l2, _, hfa, _⟩ := hfs
          split at hfa
          · split at hfa
            · cases hfa
              exact ⟨rfl, rfl⟩
            · cases hfa
          · cases hfa
        next hfs => cases h

/-- Witness for C10: in the sample database France → Normandy, the STATE
child view of France and the COUNTRY parent view of Normandy both come
back with empty name and aliases, although both entities have primary
names bound ("France", "Normandy"); and replacing the naming store does
not change either answer. -/
theorem level_views_carry_no_names_witness :
    ((⟨2, "STATE", "", []⟩ : LocationWithNames).name = ""
        ∧ (⟨2, "STATE", "", []⟩ : LocationWithNames).aliases = [])
      ∧ ((⟨1, "COUNTRY", "", []⟩ : LocationWithNames).name = ""
        ∧ (⟨1, "COUNTRY", "", []⟩ : LocationWithNames).aliases = [])
      ∧ GetChildrenAtLevel { dbRel with nameMaps := [] } (GeoID.valid 1) "STATE"
          = GetChildrenAtLevel dbRel (GeoID.valid 1) "STATE" :=
  ⟨(level_views_carry_no_names dbRel (GeoID.valid 1) "STATE").1
      [⟨2, "STATE", "", []⟩] rfl ⟨2, "STATE", "", []⟩ (by decide),
   (level_views_carry_no_names dbRel (GeoID.valid 2) "COUNTRY").2.1
      ⟨1, "COUNTRY", "", []⟩ rfl,
   ((level_views_carry_no_names dbRel (GeoID.valid 1) "STATE").2.2 []).1⟩

/-- C8 divergence exhibit: the pattern search rejects an empty pattern with
NameRequired, but the match itself is CASE-SENSITIVE (PostgreSQL LIKE):
the pattern "ca" — which occurs case-insensitively in both stored names
"California" and "CA", as the repository's own test expects — matches
nothing, while the case-matching pattern "Cal" does match. -/
theorem SearchNamesByPattern_case_sensitivity :
    SearchNamesByPattern dbCal "" = .error .nameRequired
      ∧ SearchNamesByPattern dbCal "ca" = .ok []
      ∧ ciOccurs "California" "ca" = true
      ∧ ciOccurs "CA" "ca" = true
      ∧ SearchNamesByPattern dbCal "Cal" = .ok [nmCalifornia] := by
  refine ⟨rfl, rfl, by decide, by decide, rfl⟩

/-- Two distinct members of a list both satisfying a predicate force its
count to be at least two. -/
theorem two_le_countP {α : Type} (p : α → Bool) {l : List α} {a b : α}
    (ha : a ∈ l) (hb : b ∈ l) (hab : a ≠ b) (hpa : p a = true) (hpb : p b = true) :
    2 ≤ l.countP p := by
  rw [List.countP_eq_length_filter]
  have ha2 : a ∈ l.filter p := List.mem_filter.2 ⟨ha, hpa⟩
  have hb2 : b ∈ l.filter p := List.mem_filter.2 ⟨hb, hpb⟩
  cases hfl : l.filter p with
  | nil => rw [hfl] at ha2; cases ha2
  | cons x xs =>
      cases xs with
      | nil =>
          rw [hfl] at ha2 hb2
          simp at ha2 hb2
          exact absurd (ha2.trans hb2.symm) hab
      | cons y t => simp

/-- C9: removing a name binding fails with NameRequired on an empty name;
is a no-op success when no non-deleted binding with that text exists for
the entity; fails with CannotDeletePrimary — leaving the state unchanged —
when the matched binding is primary; and a successful removal is
idempotent: repeating it succeeds without further change (given the
binding-uniqueness the store enforces on insert). -/
theorem DeleteNameMap_spec (db : DB) (locId : Uid) (name : String) :
    (name = "" → DeleteNameMap db locId name = .error .nameRequired)
    ∧ (name ≠ "" → findNameMap db locId name = none →
        DeleteNameMap db locId name = .ok db)
    ∧ (∀ nm, name ≠ "" → findNameMap db locId name = some nm → nm.isPrimary = true →
        DeleteNameMap db locId name = .error .cannotDeletePrimary
          ∧ commit db (DeleteNameMap db locId name) = db)
    ∧ (∀ db2, db.nameMaps.countP
          (fun x => x.locationId == locId && x.name == name && !x.deleted) ≤ 1 →
        DeleteNameMap db locId name = .ok db2 →
        DeleteNameMap db2 locId name = .ok db2) := by
  refine ⟨fun h => by simp [DeleteNameMap, h],
          fun hne hf => by simp [DeleteNameMap, hne, hf],
          fun nm hne hf hp => ⟨by simp [DeleteNameMap, hne, hf, hp],
                               by simp [DeleteNameMap, hne, hf, hp, commit]⟩,
          fun db2 hcount h => ?_⟩
  by_cases hne : name = ""
  · simp [DeleteNameMap, hne] at h
  · cases hf : findNameMap db locId name with
    | none =>
        simp only [DeleteNameMap, if_neg hne, hf] at h
        cases h
        simp [DeleteNameMap, hne, hf]
    | some nm =>
        simp only [DeleteNameMap, if_neg hne, hf] at h
        by_cases hp : nm.isPrimary = true
        · simp [hp] at h
        · rw [if_neg hp] at h
          simp only [Except.ok.injEq] at h
          subst h
          have hnm1 : nm ∈ db.nameMaps := List.mem_of_find?_eq_some hf
          have hnm2 := List.find?_some hf
          have hf2 : findNameMap
              { db with nameMaps := db.nameMaps.map (fun x =>
                  if x.id == nm.id && !x.deleted then { x with deleted := true } else x) }
              locId name = none := by
            apply List.find?_eq_none.2
            intro x hx
            simp only [List.mem_map] at hx
            obtain ⟨y, hy, rfl⟩ := hx
            by_cases hc : (y.id == nm.id && !y.deleted) = true
            · simp [hc]
            · rw [if_neg hc]
              intro hpred
              simp only [Bool.and_eq_true, beq_iff_eq, Bool.not_eq_true'] at hpred
              obtain ⟨⟨hyl, hyn⟩, hyd⟩ := hpred
              by_cases hynm : y = nm
              · subst hynm
                simp [hyd] at hc
              · have h2 := two_le_countP
                  (fun x => x.locationId == locId && x.name == name && !x.deleted)
                  hy hnm1 hynm (by simp [hyl, hyn, hyd]) hnm2
                omega
          unfold DeleteNameMap
          rw [if_neg hne, hf2]

/-- Witness for C9: in the sample database, removing with an empty name
fails, removing an unbound name "X" is a no-op success, removing the
primary name "France" fails with CannotDeletePrimary without change, and
removing the alias "Gaul" twice succeeds both times. -/
theorem DeleteNameMap_spec_witness :
    DeleteNameMap dbBase 1 "" = .error .nameRequired
      ∧ DeleteNameMap dbBase 1 "X" = .ok dbBase
      ∧ (DeleteNameMap dbBase 1 "France" = .error .cannotDeletePrimary
          ∧ commit dbBase (DeleteNameMap dbBase 1 "France") = dbBase)
      ∧ DeleteNameMap (commit dbBase (DeleteNameMap dbBase 1 "Gaul")) 1 "Gaul"
          = .ok (commit dbBase (DeleteNameMap dbBase 1 "Gaul")) :=
  ⟨(DeleteNameMap_spec dbBase 1 "").1 rfl,
   (DeleteNameMap_spec dbBase 1 "X").2.1 (by decide) (by decide),
   (DeleteNameMap_spec dbBase 1 "France").2.2.1 nmFrance (by decide) (by decide) rfl,
   (DeleteNameMap_spec dbBase 1 "Gaul").2.2.2
     (commit dbBase (DeleteNameMap dbBase 1 "Gaul")) (by decide) rfl⟩

/-- C6: deleting a location fails with LocationNotFound — leaving the state
unchanged — when the id does not resolve; otherwise, in the single
committed state, every name binding of the entity is deleted, every
relation in which it is parent or child is deleted, and the entity row no
longer resolves. -/
theorem DeleteLocation_spec (db : DB) (id : Uid) :
    (findLocation db id = none →
        DeleteLocation db id = .error .locationNotFound
          ∧ commit db (DeleteLocation db id) = db)
    ∧ (∀ db2, DeleteLocation db id = .ok db2 →
        (∀ nm ∈ db2.nameMaps, nm.locationId = id → nm.deleted = true)
          ∧ (∀ r ∈ db2.relations, r.parentId = id ∨ r.childId = id → r.deleted = true)
          ∧ findLocation db2 id = none) := by
  constructor
  · intro hf
    exact ⟨by simp [DeleteLocation, hf], by simp [DeleteLocation, hf, commit]⟩
  · intro db2 h
    cases hf : findLocation db id with
    | none => simp [DeleteLocation, hf] at h
    | some loc =>
        have hloc : loc.id = id := by
          have hs := List.find?_some hf
          simp only [Bool.and_eq_true, beq_iff_eq] at hs
          exact hs.1
        simp only [DeleteLocation, hf, Except.ok.injEq] at h
        subst h
        refine ⟨?_, ?_, ?_⟩
        · intro nm hnm hl
          simp only [List.mem_map] at hnm
          obtain ⟨y, hy, rfl⟩ := hnm
          by_cases hc : (y.locationId == id && !y.deleted) = true
          · simp [hc]
          · rw [if_neg hc]
            rw [if_neg hc] at hl
            simp only [Bool.and_eq_true, beq_iff_eq, Bool.not_eq_true',
              not_and] at hc
            exact Bool.not_eq_false _ |>.mp (fun hfalse => by
              exact absurd (hc hl) (by simp [hfalse]))
        · intro r hr hpc
          simp only [List.mem_map] at hr
          obtain ⟨y, hy, rfl⟩ := hr
          by_cases hc : ((y.parentId == id || y.childId == id) && !y.deleted) = true
          · simp [hc]
          · rw [if_neg hc]
            rw [if_neg hc] at hpc
            simp only [Bool.and_eq_true, Bool.or_eq_true, beq_iff_eq,
              Bool.not_eq_true', not_and] at hc
            rcases hpc with hp2 | hp2
            · exact Bool.not_eq_false _ |>.mp (fun hfalse => by
                exact absurd (hc (Or.inl hp2)) (by simp [hfalse]))
            · exact Bool.not_eq_false _ |>.mp (fun hfalse => by
                exact absurd (hc (Or.inr hp2)) (by simp [hfalse]))
        · apply List.find?_eq_none.2
          intro x hx
          simp only [List.mem_map] at hx
          obtain ⟨y, hy, rfl⟩ := hx
          by_cases hc : (y.id == loc.id && !y.deleted) = true
          · simp [hc]
          · rw [if_neg hc]
            simp only [Bool.and_eq_true, beq_iff_eq, Bool.not_eq_true',
              not_and] at hc
            intro hpred
            simp only [Bool.and_eq_true, beq_iff_eq, Bool.not_eq_true'] at hpred
            exact absurd (hc (hpred.1.trans hloc.symm)) (by simp [hpred.2])

/-- Witness for C6: deleting the unknown id 99 from the sample database
fails with LocationNotFound and changes nothing; deleting France from the
related sample database leaves no live name binding, relation or location
row for id 1. -/
theorem DeleteLocation_spec_witness :
    (DeleteLocation dbBase 99 = .error .locationNotFound
        ∧ commit dbBase (DeleteLocation dbBase 99) = dbBase)
      ∧ ((∀ nm ∈ (commit dbRel (DeleteLocation dbRel 1)).nameMaps,
            nm.locationId = 1 → nm.deleted = true)
          ∧ (∀ r ∈ (commit dbRel (DeleteLocation dbRel 1)).relations,
              r.parentId = 1 ∨ r.childId = 1 → r.deleted = true)
          ∧ findLocation (commit dbRel (DeleteLocation dbRel 1)) 1 = none) :=
  ⟨(DeleteLocation_spec dbBase 99).1 (by decide),
   (DeleteLocation_spec dbRel 1).2 (commit dbRel (DeleteLocation dbRel 1)) rfl⟩

/-- C7: fetching a list of ids returns one view per id, in order and with
matching ids, when every id resolves; and fails as a whole with
LocationNotFound — no partial list — as soon as any id does not resolve. -/
theorem GetLocations_spec (db : DB) (ids : List Uid) :
    ((∀ i ∈ ids, (findLocation db i).isSome = true) →
        ∃ vs, GetLocations db (ids.map GeoID.valid) = .ok vs
          ∧ vs.map LocationWithNames.geoId = ids)
    ∧ ((∃ i ∈ ids, findLocation db i = none) →
        GetLocations db (ids.map GeoID.valid) = .error .locationNotFound) := by
  induction ids with
  | nil =>
      refine ⟨fun _ => ⟨[], rfl, rfl⟩, fun h => ?_⟩
      obtain ⟨i, hi, _⟩ := h
      cases hi
  | cons i ids ih =>
      constructor
      · intro h
        have hi : (findLocation db i).isSome = true := h i (by simp)
        cases hf : findLocation db i with
        | none => rw [hf] at hi; cases hi
        | some loc =>
            obtain ⟨vs, hvs, hmap⟩ := ih.1 (fun j hj => h j (by simp [hj]))
            refine ⟨locationView db loc :: vs, ?_, ?_⟩
            · simp only [List.map_cons, GetLocations, GetLocationSvc,
                uuidFromString, GetLocationStore, hf, hvs]
            · have hid : loc.id = i := by
                have hs := List.find?_some hf
                simp only [Bool.and_eq_true, beq_iff_eq] at hs
                exact hs.1
              simp [locationView, hmap, hid]
      · intro h
        obtain ⟨j, hj, hnone⟩ := h
        rcases List.mem_cons.1 hj with rfl | hj2
        · simp [GetLocations, GetLocationSvc, uuidFromString,
            GetLocationStore, hnone]
        · cases hf : findLocation db i with
          | none =>
              simp [GetLocations, GetLocationSvc, uuidFromString,
                GetLocationStore, hf]
          | some loc =>
              have htail := ih.2 ⟨j, hj2, hnone⟩
              simp [GetLocations, GetLocationSvc, uuidFromString,
                GetLocationStore, hf, htail]

/-- Witness for C7: fetching [1, 2] from the sample database yields two
views with ids [1, 2]; fetching [1, 99] fails whole with LocationNotFound. -/
theorem GetLocations_spec_witness :
    (∃ vs, GetLocations dbBase ([1, 2].map GeoID.valid) = .ok vs
        ∧ vs.map LocationWithNames.geoId = [1, 2])
      ∧ GetLocations dbBase ([1, 99].map GeoID.valid) = .error .locationNotFound :=
  ⟨(GetLocations_spec dbBase [1, 2]).1 (by decide),
   (GetLocations_spec dbBase [1, 99]).2 ⟨99, by decide, by decide⟩⟩

/-- Demoting leaves no non-deleted primary row for the demoted location. -/
theorem primaryCount_demote_self (db : DB) (l : Uid) :
    primaryCount (demotePrimaries db l) l = 0 := by
  unfold primaryCount demotePrimaries
  simp only [List.countP_map]
  apply List.countP_eq_zero.2
  intro nm _
  simp only [Function.comp_apply]
  by_cases hc : (nm.locationId == l && nm.isPrimary && !nm.deleted) = true
  · rw [if_pos hc]
    simp
  · rw [if_neg hc]
    exact hc

/-- Demoting never increases the primary count of any location. -/
theorem primaryCount_demote_le (db : DB) (l l2 : Uid) :
    primaryCount (demotePrimaries db l) l2 ≤ primaryCount db l2 := by
  unfold primaryCount demotePrimaries
  simp only [List.countP_map]
  apply List.countP_mono_left
  intro nm _ h
  simp only [Function.comp_apply] at h
  by_cases hc : (nm.locationId == l && nm.isPrimary && !nm.deleted) = true
  · rw [if_pos hc] at h
    simp at h
  · rw [if_neg hc] at h
    exact h

/-- Demoting does not change the row ids. -/
theorem demote_map_id (db : DB) (l : Uid) :
    (demotePrimaries db l).nameMaps.map NameMap.id = db.nameMaps.map NameMap.id := by
  unfold demotePrimaries
  simp only [List.map_map]
  apply List.map_congr_left
  intro nm _
  simp only [Function.comp_apply]
  by_cases hc : (nm.locationId == l && nm.isPrimary && !nm.deleted) = true
  · rw [if_pos hc]
  · rw [if_neg hc]

/-- A successful create appends exactly the new row; if that row is
primary, the hook guarantees there was no live primary before. -/
theorem createNameMap_ok {db : DB} {l : Uid} {name : String} {b : Bool} {db2 : DB}
    (h : createNameMap db l name b = .ok db2) :
    db2.nameMaps = db.nameMaps ++ [⟨db.nextId, l, name, b, false⟩]
      ∧ (b = true → primaryCount db l = 0) := by
  unfold createNameMap nameMapBeforeCreate at h
  simp only [] at h
  by_cases hc : (b && decide (0 < primaryCount db l)) = true
  · rw [if_pos hc] at h
    simp at h
  · rw [if_neg hc] at h
    simp only [Except.ok.injEq] at h
    subst h
    refine ⟨rfl, fun hb => ?_⟩
    subst hb
    simp only [Bool.true_and, decide_eq_true_eq] at hc
    omega

/-- Appending one row adds its own contribution to the primary count. -/
theorem primaryCount_snoc (db2 db1 : DB) (row : NameMap) (l2 : Uid)
    (h : db2.nameMaps = db1.nameMaps ++ [row]) :
    primaryCount db2 l2 = primaryCount db1 l2 +
      (if (row.locationId == l2 && row.isPrimary && !row.deleted) = true then 1 else 0) := by
  unfold primaryCount
  rw [h, List.countP_append]
  simp [List.countP_cons]

/-- InsertNameMap preserves the at-most-one-primary invariant. -/
theorem insertNameMap_keeps_primary (db : DB) (l : Uid) (name : String) (b : Bool)
    (hinv : atMostOnePrimary db) :
    atMostOnePrimary (commit db (InsertNameMap db l name b)) := by
  by_cases hname : name = ""
  · have hv : InsertNameMap db l name b = .error .nameRequired := by
      unfold InsertNameMap
      rw [if_pos hname]
    rw [hv]
    exact hinv
  · cases hfl : findLocation db l with
    | none =>
        have hv : InsertNameMap db l name b = .error .locationNotFound := by
          unfold InsertNameMap
          rw [if_neg hname, hfl]
        rw [hv]
        exact hinv
    | some loc =>
        by_cases hex : nameExistsFor db l name = true
        · have hv : InsertNameMap db l name b = .error .nameAlreadyExists := by
            unfold InsertNameMap
            rw [if_neg hname, hfl, if_pos hex]
          rw [hv]
          exact hinv
        · have hstep : InsertNameMap db l name b = createNameMap
              (if b && decide (0 < primaryCount db l) then demotePrimaries db l else db)
              l name b := by
            unfold InsertNameMap
            rw [if_neg hname, hfl, if_neg hex]
          cases hcr : createNameMap
              (if b && decide (0 < primaryCount db l) then demotePrimaries db l else db)
              l name b with
          | error e =>
              rw [hstep, hcr]
              exact hinv
          | ok db2 =>
              rw [hstep, hcr]
              obtain ⟨hnm, hzero⟩ := createNameMap_ok hcr
              intro l2
              show primaryCount db2 l2 ≤ 1
              rw [primaryCount_snoc db2 _ _ l2 hnm]
              show primaryCount
                  (if b && decide (0 < primaryCount db l) then demotePrimaries db l else db) l2
                + (if (l == l2 && b && !false) = true then 1 else 0) ≤ 1
              by_cases hb : b = true
              · subst hb
                by_cases hll : l = l2
                · subst hll
                  have h1 : primaryCount
                      (if true && decide (0 < primaryCount db l) then demotePrimaries db l
                       else db) l = 0 := by
                    by_cases h0 : 0 < primaryCount db l
                    · rw [if_pos (by simp [h0])]
                      exact primaryCount_demote_self db l
                    · rw [if_neg (by simp [h0])]
                      omega
                  rw [h1]
                  split <;> omega
                · have hcf : ((l == l2) && true && !false) = false := by simp [hll]
                  rw [hcf]
                  simp only [Bool.false_eq_true, if_false, Nat.add_zero]
                  have hDle : primaryCount
                      (if true && decide (0 < primaryCount db l) then demotePrimaries db l
                       else db) l2 ≤ primaryCount db l2 := by
                    by_cases h0 : (true && decide (0 < primaryCount db l)) = true
                    · rw [if_pos h0]
                      exact primaryCount_demote_le db l l2
                    · rw [if_neg h0]
                  exact le_trans hDle (hinv l2)
              · have hb2 : b = false := eq_false_of_ne_true hb
                subst hb2
                have hcf : ((l == l2) && false && !false) = false := by simp
                rw [hcf]
                simp only [Bool.false_eq_true, if_false, Nat.add_zero]
                have hD : (if false && decide (0 < primaryCount db l) then demotePrimaries db l
                    else db) = db := by
                  rw [if_neg (by simp)]
                rw [hD]
                exact hinv l2

/-- A list of rows with pairwise distinct ids holds at most one row with
any given id. -/
theorem countP_id_le_one {l : List NameMap} (h : (l.map NameMap.id).Nodup) (a : Uid) :
    l.countP (fun x => x.id == a) ≤ 1 := by
  induction l with
  | nil => simp
  | cons x xs ih =>
      simp only [List.map_cons, List.nodup_cons] at h
      obtain ⟨hx, hxs⟩ := h
      rw [List.countP_cons]
      by_cases hxa : (x.id == a) = true
      · have ha : x.id = a := by simpa using hxa
        have h0 : xs.countP (fun y => y.id == a) = 0 := by
          rw [List.countP_eq_zero]
          intro y hy hya
          have hya2 : y.id = a := by simpa using hya
          exact hx (List.mem_map.2 ⟨y, hy, hya2.trans ha.symm⟩)
        rw [h0, hxa]
        simp
      · rw [eq_false_of_ne_true hxa]
        simpa using ih hxs

/-- SetPrimaryName preserves the at-most-one-primary invariant (the
promote-by-row-id step needs the primary-key uniqueness of name rows). -/
theorem setPrimaryName_keeps_primary (db : DB) (l : Uid) (name : String)
    (hnodup : (db.nameMaps.map NameMap.id).Nodup)
    (hinv : atMostOnePrimary db) :
    atMostOnePrimary (commit db (SetPrimaryName db l name)) := by
  by_cases hname : name = ""
  · have hv : SetPrimaryName db l name = .error .nameRequired := by
      unfold SetPrimaryName
      rw [if_pos hname]
    rw [hv]
    exact hinv
  · cases hfl : findLocation db l with
    | none =>
        have hv : SetPrimaryName db l name = .error .locationNotFound := by
          unfold SetPrimaryName
          rw [if_neg hname, hfl]
        rw [hv]
        exact hinv
    | some loc =>
        cases hfn : findNameMap db l name with
        | none =>
            have hstep : SetPrimaryName db l name
                = createNameMap (demotePrimaries db l) l name true := by
              unfold SetPrimaryName
              rw [if_neg hname, hfl, hfn]
            cases hcr : createNameMap (demotePrimaries db l) l name true with
            | error e =>
                rw [hstep, hcr]
                exact hinv
            | ok db2 =>
                rw [hstep, hcr]
                intro l2
                show primaryCount db2 l2 ≤ 1
                obtain ⟨hnm, hzero⟩ := createNameMap_ok hcr
                rw [primaryCount_snoc db2 _ _ l2 hnm]
                show primaryCount (demotePrimaries db l) l2
                    + (if (l == l2 && true && !false) = true then 1 else 0) ≤ 1
                by_cases hll : l = l2
                · subst hll
                  rw [primaryCount_demote_self]
                  split <;> omega
                · have hcf : ((l == l2) && true && !false) = false := by simp [hll]
                  rw [hcf]
                  simp only [Bool.false_eq_true, if_false, Nat.add_zero]
                  exact le_trans (primaryCount_demote_le db l l2) (hinv l2)
        | some nm =>
            by_cases hp : nm.isPrimary = true
            · have hv : SetPrimaryName db l name = .ok db := by
                unfold SetPrimaryName
                rw [if_neg hname, hfl, hfn]
                simp only []
                rw [if_pos hp]
              rw [hv]
              exact hinv
            · have hstep : SetPrimaryName db l name = .ok
                  (updateNameMapRow (demotePrimaries db l) nm.id
                    (fun x => { x with isPrimary := true })) := by
                unfold SetPrimaryName
                rw [if_neg hname, hfl, hfn]
                simp only []
                rw [if_neg hp]
              rw [hstep]
              intro l2
              show primaryCount (updateNameMapRow (demotePrimaries db l) nm.id
                  (fun x => { x with isPrimary := true })) l2 ≤ 1
              have hmem : nm ∈ db.nameMaps := List.mem_of_find?_eq_some hfn
              have hpred := List.find?_some hfn
              simp only [Bool.and_eq_true, beq_iff_eq, Bool.not_eq_true'] at hpred
              obtain ⟨⟨hnl, hnn⟩, hnd⟩ := hpred
              have hnp : nm.isPrimary = false := eq_false_of_ne_true hp
              have hrow : ∀ x ∈ (demotePrimaries db l).nameMaps, x.id = nm.id → x = nm := by
                intro x hx hid
                unfold demotePrimaries at hx
                simp only [List.mem_map] at hx
                obtain ⟨y, hy, rfl⟩ := hx
                by_cases hc : (y.locationId == l && y.isPrimary && !y.deleted) = true
                · rw [if_pos hc] at hid ⊢
                  have hid2 : y.id = nm.id := hid
                  have hy2 : y = nm := List.inj_on_of_nodup_map hnodup hy hmem hid2
                  subst hy2
                  rw [hnp] at hc
                  simp at hc
                · rw [if_neg hc] at hid ⊢
                  exact List.inj_on_of_nodup_map hnodup hy hmem hid
              show List.countP (fun x => x.locationId == l2 && x.isPrimary && !x.deleted)
                  ((demotePrimaries db l).nameMaps.map
                    (fun x => if x.id == nm.id then { x with isPrimary := true } else x)) ≤ 1
              rw [List.countP_map]
              by_cases hll : l = l2
              · subst hll
                have hD0 : ∀ x ∈ (demotePrimaries db l).nameMaps,
                    (x.locationId == l && x.isPrimary && !x.deleted) = false := by
                  have h0 := primaryCount_demote_self db l
                  unfold primaryCount at h0
                  rw [List.countP_eq_zero] at h0
                  intro x hx
                  exact eq_false_of_ne_true (h0 x hx)
                have hle : List.countP
                    ((fun x => x.locationId == l && x.isPrimary && !x.deleted) ∘
                      (fun x => if x.id == nm.id then { x with isPrimary := true } else x))
                    (demotePrimaries db l).nameMaps
                    ≤ List.countP (fun x => x.id == nm.id) (demotePrimaries db l).nameMaps := by
                  apply List.countP_mono_left
                  intro x hx hpx
                  by_cases hid : (x.id == nm.id) = true
                  · exact hid
                  · exfalso
                    rw [Function.comp_apply, if_neg hid, hD0 x hx] at hpx
                    exact Bool.false_ne_true hpx
                refine le_trans hle ?_
                apply countP_id_le_one
                rw [demote_map_id]
                exact hnodup
              · have hcong : ∀ x ∈ (demotePrimaries db l).nameMaps,
                    ((fun x => x.locationId == l2 && x.isPrimary && !x.deleted) ∘
                      (fun x => if x.id == nm.id then { x with isPrimary := true } else x)) x
                      = (x.locationId == l2 && x.isPrimary && !x.deleted) := by
                  intro x hx
                  rw [Function.comp_apply]
                  by_cases hid : (x.id == nm.id) = true
                  · have hid2 : x.id = nm.id := by simpa using hid
                    have hxnm : x = nm := hrow x hx hid2
                    subst hxnm
                    rw [if_pos hid]
                    have hbeq : (x.locationId == l2) = false := by
                      simp [hnl, hll]
                    show (x.locationId == l2 && true && !x.deleted)
                        = (x.locationId == l2 && x.isPrimary && !x.deleted)
                    rw [hbeq]
                    simp
                  · rw [if_neg hid]
                rw [List.countP_congr (fun x hx => by rw [hcong x hx])]
                exact le_trans (primaryCount_demote_le db l l2) (hinv l2)

/-- C1: among the non-deleted name bindings of every entity at most one is
primary, after any InsertNameMap (add_name) and any SetPrimaryName
(set_primary) call, whether it commits or rolls back: an existing primary
is demoted inside the same transaction before the new primary is written. -/
theorem primary_uniqueness_preserved (db : DB) (locId : Uid) (name : String)
    (isPrimary : Bool)
    (hnodup : (db.nameMaps.map NameMap.id).Nodup)
    (hinv : atMostOnePrimary db) :
    atMostOnePrimary (commit db (InsertNameMap db locId name isPrimary))
      ∧ atMostOnePrimary (commit db (SetPrimaryName db locId name)) :=
  ⟨insertNameMap_keeps_primary db locId name isPrimary hinv,
   setPrimaryName_keeps_primary db locId name hnodup hinv⟩

/-- Witness for C1: starting from a database with no name rows, inserting a
primary name "Paris" and setting "Paris" primary each leave at most one
primary per entity. -/
theorem primary_uniqueness_preserved_witness :
    atMostOnePrimary (commit dbNames0 (InsertNameMap dbNames0 1 "Paris" true))
      ∧ atMostOnePrimary (commit dbNames0 (SetPrimaryName dbNames0 1 "Paris")) :=
  primary_uniqueness_preserved dbNames0 1 "Paris" true (by decide)
    (fun _ => by simp [primaryCount, dbNames0])

/-- C2: InsertRelation (add_relationship) preserves per-level parent
uniqueness: it rejects with DuplicateRelation any candidate whose child
already has a non-deleted relation to a parent of the candidate parent's
level, so after any call — committed or rolled back — every child still
has at most one non-deleted relation per parent level (location rows obey
their primary-key uniqueness). -/
theorem InsertRelation_preserves_perLevelUnique (db : DB) (p c : Uid)
    (hnodup : (db.locations.map Location.id).Nodup)
    (hinv : perLevelUnique db) :
    perLevelUnique (commit db (InsertRelation db p c)) := by
  by_cases hpc : (p == c) = true
  · have hv : InsertRelation db p c = .error .selfRelation := by
      unfold InsertRelation
      rw [if_pos hpc]
    rw [hv]
    exact hinv
  · cases hfp : findLocation db p with
    | none =>
        have hv : InsertRelation db p c = .error .locationNotFound := by
          unfold InsertRelation
          rw [if_neg hpc, hfp]
        rw [hv]
        exact hinv
    | some parent =>
        cases hfc : findLocation db c with
        | none =>
            have hv : InsertRelation db p c = .error .locationNotFound := by
              unfold InsertRelation
              rw [if_neg hpc, hfp]
              simp only []
              rw [hfc]
            rw [hv]
            exact hinv
        | some child =>
            by_cases hrv : rankViolation db parent child = true
            · have hv : InsertRelation db p c = .error .invalidHierarchy := by
                unfold InsertRelation
                rw [if_neg hpc, hfp]
                simp only []
                rw [hfc]
                simp only []
                rw [if_pos hrv]
              rw [hv]
              exact hinv
            · by_cases hdup : dupRelationExists db c parent.geoLevelId = true
              · have hv : InsertRelation db p c = .error .duplicateRelation := by
                  unfold InsertRelation
                  rw [if_neg hpc, hfp]
                  simp only []
                  rw [hfc]
                  simp only []
                  rw [if_neg hrv, if_pos hdup]
                rw [hv]
                exact hinv
              · have hstep : InsertRelation db p c = .ok
                    { db with
                      relations := db.relations ++ [⟨db.nextId, p, c, false⟩]
                      nextId := db.nextId + 1 } := by
                  unfold InsertRelation
                  rw [if_neg hpc, hfp]
                  simp only []
                  rw [hfc]
                  simp only []
                  rw [if_neg hrv, if_neg hdup]
                rw [hstep]
                intro c2 l2
                show List.countP
                    (fun r => !r.deleted && r.childId == c2 && parentHasLevel db r l2)
                    (db.relations ++ [⟨db.nextId, p, c, false⟩]) ≤ 1
                rw [List.countP_append]
                have hfacts := List.find?_some hfp
                simp only [Bool.and_eq_true, beq_iff_eq, Bool.not_eq_true'] at hfacts
                obtain ⟨hpid, hpdel⟩ := hfacts
                have hpm : parent ∈ db.locations := List.mem_of_find?_eq_some hfp
                have hnew : ∀ lvl, parentHasLevel db ⟨db.nextId, p, c, false⟩ lvl = true
                    ↔ lvl = parent.geoLevelId := by
                  intro lvl
                  constructor
                  · intro hh
                    unfold parentHasLevel at hh
                    rw [List.any_eq_true] at hh
                    obtain ⟨q, hq, hqp⟩ := hh
                    simp only [Bool.and_eq_true, beq_iff_eq] at hqp
                    have hq2 : q = parent :=
                      List.inj_on_of_nodup_map hnodup hq hpm (hqp.1.trans hpid.symm)
                    rw [← hqp.2, hq2]
                  · intro hh
                    subst hh
                    unfold parentHasLevel
                    rw [List.any_eq_true]
                    exact ⟨parent, hpm, by simp [hpid]⟩
                by_cases hc2 : c = c2
                · subst hc2
                  by_cases hl2 : l2 = parent.geoLevelId
                  · subst hl2
                    have hz : List.countP
                        (fun r => !r.deleted && r.childId == c
                          && parentHasLevel db r parent.geoLevelId) db.relations = 0 := by
                      rw [List.countP_eq_zero]
                      intro r hr hcon
                      simp only [Bool.and_eq_true, beq_iff_eq, Bool.not_eq_true'] at hcon
                      obtain ⟨⟨hrd, hrc⟩, hrp⟩ := hcon
                      apply hdup
                      unfold dupRelationExists
                      rw [List.any_eq_true]
                      exact ⟨r, hr, by simp [hrc, hrp, hrd]⟩
                    rw [hz, Nat.zero_add]
                    simp only [List.countP_cons, List.countP_nil]
                    split <;> omega
                  · have hnf : (!(⟨db.nextId, p, c, false⟩ : Relation).deleted
                        && (⟨db.nextId, p, c, false⟩ : Relation).childId == c
                        && parentHasLevel db ⟨db.nextId, p, c, false⟩ l2) = false := by
                      by_cases hph : parentHasLevel db ⟨db.nextId, p, c, false⟩ l2 = true
                      · exact absurd ((hnew l2).1 hph) hl2
                      · have hph2 : parentHasLevel db ⟨db.nextId, p, c, false⟩ l2 = false :=
                          eq_false_of_ne_true hph
                        simp [hph2]
                    have h0 : List.countP
                        (fun r => !r.deleted && r.childId == c && parentHasLevel db r l2)
                        [⟨db.nextId, p, c, false⟩] = 0 := by
                      simp only [List.countP_cons, List.countP_nil, hnf]
                      simp
                    rw [h0, Nat.add_zero]
                    exact hinv c l2
                · have h0 : List.countP
                      (fun r => !r.deleted && r.childId == c2 && parentHasLevel db r l2)
                      [⟨db.nextId, p, c, false⟩] = 0 := by
                    simp [List.countP_cons, hc2]
                  rw [h0, Nat.add_zero]
                  exact hinv c2 l2

/-- Witness for C2: inserting France → Normandy into the sample database
(which has no relations and pairwise distinct location ids) leaves every
child with at most one non-deleted relation per parent level. -/
theorem InsertRelation_preserves_perLevelUnique_witness :
    perLevelUnique (commit dbBase (InsertRelation dbBase 1 2)) :=
  InsertRelation_preserves_perLevelUnique dbBase 1 2 (by decide)
    (fun _ _ => by simp [childLevelCount, dbBase])

end LocationSpec
